import Mathlib

/-!
# PlantIT backend: route handlers, bearer-token checks and address parsing

A shallow embedding of the Express route handlers of the repository
(`routes/auth.js`, `routes/addresses.js`, `models/Address.js`).

* JavaScript strings are lists of characters (`Str`); `split`, `trim` and
  `startsWith` are written out on that representation.
* The document store is an explicit state (`Store`) threaded through the
  handlers.  A store call that throws is an input of the run (`Env.readFault`,
  `Env.writeFault`), so every handler is a total function.
* The `jsonwebtoken` and `bcrypt` libraries are parameters (`Jwt`, `Codec`).
  The expiry comparison that `jwt.verify` performs is written out in
  `jwtVerify`; time is the library clock `Math.floor(Date.now() / 1000)`,
  a natural number of seconds.
* `models/User.js` is not among the sources: the account document, the
  credential codec and the unique index on the email are taken from the
  specification (`Account`, `Codec`, `duplicateEmail`).
* A handler returns a `Result`: the response (or the exception that left the
  handler), the store afterwards and the list of store calls it made.
-/

namespace PlantIT

/-! ## JavaScript values -/

/-- A JavaScript string. -/
abbrev Str := List Char

/-- Store-assigned identifier of a document (`_id`). -/
abbrev AccountId := Nat

/-- A value found in a parsed JSON body.  `compound` stands for arrays and
objects, neither of which has a callable `split` property. -/
inductive Json where
  | null
  | bool (b : Bool)
  | num (n : Int)
  | str (s : Str)
  | compound
  deriving DecidableEq, Repr

/-- `s.split(sep)` for a one-character separator: the list of segments between
occurrences of `sep`; the empty string gives one empty segment. -/
def jsSplit (sep : Char) : Str → List Str
  | [] => [[]]
  | c :: cs =>
    if c = sep then [] :: jsSplit sep cs
    else
      match jsSplit sep cs with
      | [] => [[c]]
      | seg :: rest => (c :: seg) :: rest

/-- White space and line terminators removed by `String.prototype.trim`. -/
def isJsSpace (c : Char) : Bool :=
  let n := c.toNat
  n = 0x09 || n = 0x0A || n = 0x0B || n = 0x0C || n = 0x0D || n = 0x20 || n = 0xA0 ||
  n = 0x1680 || (0x2000 ≤ n && n ≤ 0x200A) || n = 0x2028 || n = 0x2029 || n = 0x202F ||
  n = 0x205F || n = 0x3000 || n = 0xFEFF

/-- `s.trim()`. -/
def jsTrim (s : Str) : Str :=
  ((s.dropWhile isJsSpace).reverse.dropWhile isJsSpace).reverse

/-- `s.startsWith(p)`. -/
def jsStartsWith (p s : Str) : Bool :=
  p.isPrefixOf s

/-- Truthiness of a value that is either `undefined` or a string: only a
non-empty string is truthy. -/
def truthy : Option Str → Bool
  | some (_ :: _) => true
  | _ => false

/-! ## Documents and the store -/

/-- Modelled from the spec: `models/User.js` is not part of the sources.  An
account has an identifier, a username, an email, a password hash and optional
first name, last name and phone.  The email is optional here because the update
route may write an absent value over it. -/
structure Account where
  id : AccountId
  username : Str
  email : Option Str
  password : Str
  firstname : Option Str
  lastname : Option Str
  phone : Option Str
  deriving DecidableEq, Repr

/-- An account as returned by `select('-password')`. -/
structure Profile where
  id : AccountId
  username : Str
  email : Option Str
  firstname : Option Str
  lastname : Option Str
  phone : Option Str
  deriving DecidableEq, Repr

/-- Projection dropping the password field. -/
def Account.profile (a : Account) : Profile :=
  { id := a.id, username := a.username, email := a.email,
    firstname := a.firstname, lastname := a.lastname, phone := a.phone }

/-- An address document (`AddressSchema`). -/
structure Address where
  id : Nat
  street : Str
  city : Str
  state : Str
  country : Str
  postalCode : Str
  user : AccountId
  deriving DecidableEq, Repr

/-- The two collections the handlers below use, and the next fresh `_id`. -/
structure Store where
  accounts : List Account
  addresses : List Address
  nextId : Nat
  deriving DecidableEq, Repr

/-- A call made to the document store. -/
inductive StoreOp where
  | userFindOne
  | userFindById
  | userFindByIdAndUpdate
  | userSave
  | addressSave
  | addressFind
  deriving DecidableEq, Repr

/-- Outcome of one store call: `none` when it returns, `some msg` when it
throws an error whose `message` is `msg`. -/
abbrev Fault := Option Str

/-- What a run of a handler receives from outside: the clock in seconds, the
outcome of its store read and of its store write, and whether the driver drops
`undefined` keys of an update document (otherwise they are written as null). -/
structure Env where
  clock : Nat
  readFault : Fault
  writeFault : Fault
  omitUndefined : Bool
  deriving DecidableEq, Repr

/-! ## Responses -/

/-- JSON body of a response. -/
inductive Body where
  | error (msg : Str)
  | token (tok : Str)
  | message (msg : Str)
  | profile (doc : Profile)
  | user (doc : Option Account)
  | addressAdded (msg : Str) (address : Address)
  | addresses (docs : List Address)
  deriving DecidableEq, Repr

/-- How a handler ends: with a response, or with an exception that no `catch`
of the handler covers. -/
inductive Outcome where
  | response (status : Nat) (body : Body)
  | uncaught (err : Str)
  deriving DecidableEq, Repr

/-- Result of running a handler. -/
structure Result where
  outcome : Outcome
  store : Store
  log : List StoreOp
  deriving DecidableEq, Repr

/-- Status code of a result, when a response was sent. -/
def Result.status (r : Result) : Option Nat :=
  match r.outcome with
  | .response st _ => some st
  | .uncaught _ => none

/-! ## Libraries -/

/-- Decoded payload of a token: `id`, `iat`, `exp`. -/
structure Payload where
  id : AccountId
  iat : Nat
  exp : Nat
  deriving DecidableEq, Repr

/-- The `jsonwebtoken` library under the process secret `JWT_SECRET`.
`sign id life now` is `jwt.sign` of the payload with the single field `id`, with
option `expiresIn` equal to `life` seconds, at clock `now`; `decode` checks the
signature and parses the payload.  The laws say that
a signed token decodes to the payload that was signed, with `exp = iat + life`,
and that a compact token is non-empty and contains no blank. -/
structure Jwt where
  sign : AccountId → Nat → Nat → Str
  decode : Str → Option Payload
  decode_sign : ∀ id life now, decode (sign id life now) = some ⟨id, now, now + life⟩
  sign_ne_nil : ∀ id life now, sign id life now ≠ []
  sign_no_blank : ∀ id life now, ' ' ∉ sign id life now

/-- `jwt.verify(token, JWT_SECRET, cb)` with default options at clock `clock`:
an absent or empty token, a token that does not decode, and a token with
`clock >= exp` give an error (`none`); otherwise the payload. -/
def jwtVerify (L : Jwt) (token : Option Str) (clock : Nat) : Option Payload :=
  match token with
  | some (c :: cs) =>
    match L.decode (c :: cs) with
    | none => none
    | some p => if p.exp ≤ clock then none else some p
  | _ => none

/-- The token made by signup and login: `jwt.sign` of the payload `id: user._id`
with `expiresIn: '1h'`, that is 3600 seconds. -/
def issueToken (L : Jwt) (id : AccountId) (now : Nat) : Str :=
  L.sign id 3600 now

/-- Modelled from the spec: the credential codec of the absent `models/User.js`
(the pre-save hashing hook and `comparePassword`). -/
structure Codec where
  hash : Str → Str
  compare : Option Str → Str → Bool

/-! ## Middleware -/

/-- Result of a middleware: a rejection response, or `next()` with the account
id placed in `req.user`. -/
inductive MwResult where
  | reject (status : Nat) (msg : Str)
  | next (user : AccountId)
  deriving DecidableEq, Repr

/-- `authMiddleware` of `routes/auth.js`. -/
def authMiddleware (L : Jwt) (clock : Nat) (authorization : Option Str) : MwResult :=
  let token := authorization.bind fun h => (jsSplit ' ' h).get? 1
  if !truthy token then .reject 403 "Token is required".toList
  else
    match jwtVerify L token clock with
    | none => .reject 403 "Invalid token".toList
    | some decoded => .next decoded.id

/-- `authenticateToken` of `routes/addresses.js`. -/
def authenticateToken (L : Jwt) (clock : Nat) (authorization : Option Str) : MwResult :=
  if !truthy authorization || !jsStartsWith "Bearer ".toList (authorization.getD []) then
    .reject 403 "Forbidden: No token provided or invalid token format".toList
  else
    let token := (jsSplit ' ' (authorization.getD [])).get? 1
    match jwtVerify L token clock with
    | none => .reject 403 "Forbidden: Invalid token".toList
    | some user => .next user.id

/-! ## Address routes -/

/-- Mongoose validation of an address document before it is saved: the five
required strings are non-empty. -/
def validAddress (a : Address) : Bool :=
  !a.street.isEmpty && !a.city.isEmpty && !a.state.isEmpty && !a.country.isEmpty &&
    !a.postalCode.isEmpty

/-- `address.save()`. -/
def saveAddress (env : Env) (a : Address) (s : Store) : Except Str Store :=
  if !validAddress a then .error "Address validation failed".toList
  else
    match env.writeFault with
    | some e => .error e
    | none => .ok { s with addresses := s.addresses ++ [a], nextId := s.nextId + 1 }

/-- Handler of `POST /api/addresses/add`, run with `req.user.id = user` and
`req.body.combinedAddress = combinedAddress`. -/
def addAddress (user : AccountId) (combinedAddress : Option Json) (env : Env) (s : Store) :
    Result :=
  match combinedAddress with
  | some (.str text) =>
    let parts := (jsSplit ',' text).map jsTrim
    let street := parts.get? 0
    let city := parts.get? 1
    let state := parts.get? 2
    let country := parts.get? 3
    let postalCode := parts.get? 4
    if !truthy street || !truthy city || !truthy state || !truthy country ||
        !truthy postalCode then
      ⟨.response 400 (.error "Incomplete address".toList), s, []⟩
    else
      let address : Address :=
        { id := s.nextId, street := street.getD [], city := city.getD [],
          state := state.getD [], country := country.getD [],
          postalCode := postalCode.getD [], user := user }
      match saveAddress env address s with
      | .error _ => ⟨.response 500 (.error "Server error".toList), s, [.addressSave]⟩
      | .ok s' =>
        ⟨.response 201 (.addressAdded "Address added successfully".toList address), s',
          [.addressSave]⟩
  | _ => ⟨.uncaught "TypeError".toList, s, []⟩

/-- Handler of `GET /api/addresses`, run with `req.user.id = user`. -/
def listAddresses (user : AccountId) (env : Env) (s : Store) : Result :=
  match env.readFault with
  | some _ => ⟨.response 500 (.error "Server error".toList), s, [.addressFind]⟩
  | none =>
    ⟨.response 200 (.addresses (s.addresses.filter fun a => a.user = user)), s,
      [.addressFind]⟩

/-! ## Account routes -/

/-- Body of `POST /api/signup`; an absent field is `none`. -/
structure SignupBody where
  username : Option Str
  email : Option Str
  password : Option Str
  deriving DecidableEq, Repr

/-- Body of `POST /api/login`. -/
structure LoginBody where
  email : Option Str
  password : Option Str
  deriving DecidableEq, Repr

/-- Body of `PUT /api/update`. -/
structure UpdateBody where
  first_name : Option Str
  last_name : Option Str
  email : Option Str
  phone : Option Str
  deriving DecidableEq, Repr

/-- Body of `PUT /api/change-password`. -/
structure PasswordBody where
  currentPassword : Option Str
  newPassword : Option Str
  deriving DecidableEq, Repr

/-- `User.findOne` with the filter `$or: [username, email]`. -/
def findByUsernameOrEmail (s : Store) (username email : Str) : Option Account :=
  s.accounts.find? fun a => a.username = username || a.email = some email

/-- `User.findOne` with the filter `email`. -/
def findByEmail (s : Store) (email : Str) : Option Account :=
  s.accounts.find? fun a => a.email = some email

/-- `User.findById`. -/
def findById (s : Store) (id : AccountId) : Option Account :=
  s.accounts.find? fun a => a.id = id

/-- Handler of `POST /api/signup`. -/
def signup (C : Codec) (L : Jwt) (env : Env) (body : SignupBody) (s : Store) : Result :=
  if !truthy body.username || !truthy body.email || !truthy body.password then
    ⟨.response 400 (.error "All fields are required".toList), s, []⟩
  else
    match env.readFault with
    | some e => ⟨.response 400 (.error e), s, [.userFindOne]⟩
    | none =>
      match findByUsernameOrEmail s (body.username.getD []) (body.email.getD []) with
      | some _ =>
        ⟨.response 400 (.error "Username or email already exists".toList), s, [.userFindOne]⟩
      | none =>
        let user : Account :=
          { id := s.nextId, username := body.username.getD [], email := body.email,
            password := C.hash (body.password.getD []),
            firstname := none, lastname := none, phone := none }
        match env.writeFault with
        | some e => ⟨.response 400 (.error e), s, [.userFindOne, .userSave]⟩
        | none =>
          ⟨.response 201 (.token (issueToken L user.id env.clock)),
            { s with accounts := s.accounts ++ [user], nextId := s.nextId + 1 },
            [.userFindOne, .userSave]⟩

/-- Handler of `POST /api/login`. -/
def login (C : Codec) (L : Jwt) (env : Env) (body : LoginBody) (s : Store) : Result :=
  if !truthy body.email || !truthy body.password then
    ⟨.response 400 (.error "Email and password are required".toList), s, []⟩
  else
    match env.readFault with
    | some _ => ⟨.response 500 (.error "An error occurred during login".toList), s, [.userFindOne]⟩
    | none =>
      match findByEmail s (body.email.getD []) with
      | none =>
        ⟨.response 400 (.error "User with this email does not exist".toList), s, [.userFindOne]⟩
      | some user =>
        if !C.compare body.password user.password then
          ⟨.response 400 (.error "Invalid password".toList), s, [.userFindOne]⟩
        else
          ⟨.response 200 (.token (issueToken L user.id env.clock)), s, [.userFindOne]⟩

/-- Handler of `GET /api/users/me`, run with `req.user.id = user`. -/
def getSelf (user : AccountId) (env : Env) (s : Store) : Result :=
  match env.readFault with
  | some _ => ⟨.response 500 (.error "Failed to fetch user data".toList), s, [.userFindById]⟩
  | none =>
    match findById s user with
    | none => ⟨.response 404 (.error "User not found".toList), s, [.userFindById]⟩
    | some a => ⟨.response 200 (.profile a.profile), s, [.userFindById]⟩

/-- One field of an update document: a supplied value is written; an absent one
is skipped when the driver omits `undefined` keys and written as null
otherwise. -/
def setField (skip : Bool) (new old : Option Str) : Option Str :=
  match new with
  | some v => some v
  | none => if skip then old else none

/-- The update document of `PUT /api/update` applied to one account. -/
def applyUpdate (skip : Bool) (body : UpdateBody) (a : Account) : Account :=
  { a with
    firstname := setField skip body.first_name a.firstname,
    lastname := setField skip body.last_name a.lastname,
    email := setField skip body.email a.email,
    phone := setField skip body.phone a.phone }

/-- `User.findByIdAndUpdate(id, update)` on the account list: the first
account with that id is replaced. -/
def updateById (skip : Bool) (id : AccountId) (body : UpdateBody) : List Account → List Account
  | [] => []
  | a :: rest =>
    if a.id = id then applyUpdate skip body a :: rest
    else a :: updateById skip id body rest

/-- Modelled from the spec: the unique index on the email of accounts, declared
in the absent `models/User.js` (the spec lists the email of an account as
unique).  The store refuses, with a duplicate-key error, an update that
changes the email of `a` to a value that a stored account already holds.  An
insert reaches the store only after the signup handler found no account with
that username or email, and no update writes the username. -/
def duplicateEmail (accounts : List Account) (a updated : Account) : Bool :=
  updated.email != a.email && accounts.any fun b => b.email == updated.email

/-- Handler of `PUT /api/update`, run with `req.user.id = user`.  The store
call throws on a fault of the write and on a duplicate key; both end in the
`catch` block. -/
def updateSelf (user : AccountId) (body : UpdateBody) (env : Env) (s : Store) : Result :=
  let refused :=
    match findById s user with
    | some a => duplicateEmail s.accounts a (applyUpdate env.omitUndefined body a)
    | none => false
  match env.writeFault with
  | some _ =>
    ⟨.response 500 (.error "Failed to update user information".toList), s,
      [.userFindByIdAndUpdate]⟩
  | none =>
    if refused then
      ⟨.response 500 (.error "Failed to update user information".toList), s,
        [.userFindByIdAndUpdate]⟩
    else
      let s' : Store := { s with accounts := updateById env.omitUndefined user body s.accounts }
      ⟨.response 200 (.user (findById s' user)), s', [.userFindByIdAndUpdate]⟩

/-- `user.save()` of an existing account after `user.password = newPassword`:
the stored hash of the first account with that id is replaced by `digest`. -/
def setPassword (id : AccountId) (digest : Str) : List Account → List Account
  | [] => []
  | a :: rest =>
    if a.id = id then { a with password := digest } :: rest
    else a :: setPassword id digest rest

/-- Handler of `PUT /api/change-password`, run with `req.user.id = user`.  An
absent `newPassword` fails the validation of the required password field. -/
def changePassword (C : Codec) (user : AccountId) (body : PasswordBody) (env : Env)
    (s : Store) : Result :=
  match env.readFault with
  | some _ => ⟨.response 500 (.error "Failed to change password".toList), s, [.userFindById]⟩
  | none =>
    match findById s user with
    | none => ⟨.response 404 (.error "User not found".toList), s, [.userFindById]⟩
    | some a =>
      if !C.compare body.currentPassword a.password then
        ⟨.response 400 (.error "Current password is incorrect".toList), s, [.userFindById]⟩
      else
        match body.newPassword, env.writeFault with
        | some pw, none =>
          ⟨.response 200 (.message "Password updated successfully".toList),
            { s with accounts := setPassword a.id (C.hash pw) s.accounts },
            [.userFindById, .userSave]⟩
        | _, _ =>
          ⟨.response 500 (.error "Failed to change password".toList), s,
            [.userFindById, .userSave]⟩

/-! ## Routing -/

/-- A request to one of the routes registered with a token middleware. -/
inductive Protected where
  | usersMe
  | update (body : UpdateBody)
  | changePassword (body : PasswordBody)
  | addressesAdd (combinedAddress : Option Json)
  | addressesList
  deriving DecidableEq, Repr

/-- Run a handler behind a middleware: a rejection is the response and the
handler is not called. -/
def behind (m : MwResult) (s : Store) (handler : AccountId → Result) : Result :=
  match m with
  | .reject status msg => ⟨.response status (.error msg), s, []⟩
  | .next user => handler user

/-- The router on the protected routes: the account routes sit behind
`authMiddleware`, the address routes behind `authenticateToken`. -/
def serve (C : Codec) (L : Jwt) (env : Env) (authorization : Option Str) (r : Protected)
    (s : Store) : Result :=
  match r with
  | .usersMe =>
    behind (authMiddleware L env.clock authorization) s fun u => getSelf u env s
  | .update body =>
    behind (authMiddleware L env.clock authorization) s fun u => updateSelf u body env s
  | .changePassword body =>
    behind (authMiddleware L env.clock authorization) s fun u => changePassword C u body env s
  | .addressesAdd combinedAddress =>
    behind (authenticateToken L env.clock authorization) s fun u =>
      addAddress u combinedAddress env s
  | .addressesList =>
    behind (authenticateToken L env.clock authorization) s fun u => listAddresses u env s

/-- A request to an account route, with the account id the middleware attached
where the route is protected. -/
inductive AccountRequest where
  | signup (body : SignupBody)
  | login (body : LoginBody)
  | getSelf (user : AccountId)
  | updateSelf (user : AccountId) (body : UpdateBody)
  | changePassword (user : AccountId) (body : PasswordBody)
  deriving DecidableEq, Repr

/-- One account request handled on a store. -/
def handle (C : Codec) (L : Jwt) (env : Env) (r : AccountRequest) (s : Store) : Result :=
  match r with
  | .signup body => signup C L env body s
  | .login body => login C L env body s
  | .getSelf u => getSelf u env s
  | .updateSelf u body => updateSelf u body env s
  | .changePassword u body => changePassword C u body env s

/-- The store after a sequence of account requests, each handled in its own
environment (clock and outcome of the store calls). -/
def runAll (C : Codec) (L : Jwt) : List (Env × AccountRequest) → Store → Store
  | [], s => s
  | (env, r) :: rs, s => runAll C L rs (handle C L env r s).store

/-- No two accounts share a username or an email. -/
def UniqueAccounts (s : Store) : Prop :=
  s.accounts.Pairwise fun a b => a.username ≠ b.username ∧ a.email ≠ b.email

instance (s : Store) : Decidable (UniqueAccounts s) := by
  unfold UniqueAccounts
  infer_instance

/-! ## A concrete instance of the libraries -/

/-- Tokens written in the clear: `id` letters `i`, a dot, `iat` letters `t`, a
dot, and `exp - iat` letters `e`. -/
def plainSign (id life now : Nat) : Str :=
  List.replicate id 'i' ++ '.' :: (List.replicate now 't' ++ '.' :: List.replicate life 'e')

/-- Inverse of `plainSign`; any other string is refused. -/
def plainDecode (s : Str) : Option Payload :=
  match s.dropWhile (· == 'i') with
  | '.' :: r1 =>
    match r1.dropWhile (· == 't') with
    | '.' :: r2 =>
      if r2.all (· == 'e') then
        some ⟨(s.takeWhile (· == 'i')).length, (r1.takeWhile (· == 't')).length,
          (r1.takeWhile (· == 't')).length + r2.length⟩
      else none
    | _ => none
  | _ => none

/-- The clear-text instance of the token library. -/
def plainJwt : Jwt where
  sign := plainSign
  decode := plainDecode
  decode_sign := by
    intro id life now
    have hdrop : ∀ (p : Char → Bool) (c d : Char) (n : Nat) (r : Str), p c = true →
        p d = false → (List.replicate n c ++ d :: r).dropWhile p = d :: r := by
      intro p c d n r hc hd
      induction n with
      | zero => simp [List.dropWhile, hd]
      | succ n ih => simp [List.replicate_succ, List.dropWhile, hc, ih]
    have htake : ∀ (p : Char → Bool) (c d : Char) (n : Nat) (r : Str), p c = true →
        p d = false → (List.replicate n c ++ d :: r).takeWhile p = List.replicate n c := by
      intro p c d n r hc hd
      induction n with
      | zero => simp [List.takeWhile, hd]
      | succ n ih => simp [List.replicate_succ, List.takeWhile, hc, ih]
    unfold plainDecode plainSign
    rw [hdrop _ 'i' '.' id _ (by decide) (by decide)]
    simp only
    rw [hdrop _ 't' '.' now _ (by decide) (by decide)]
    simp only
    rw [htake _ 'i' '.' id _ (by decide) (by decide),
      htake _ 't' '.' now _ (by decide) (by decide)]
    simp
  sign_ne_nil := by
    intro id life now h
    have := congrArg List.length h
    simp [plainSign] at this
  sign_no_blank := by
    intro id life now h
    simp [plainSign, List.mem_replicate] at h

/-- A codec that stores the secret unchanged and compares by equality. -/
def plainCodec : Codec where
  hash := fun p => p
  compare := fun candidate digest => candidate == some digest

/-- A token `tok` was handed out for account `id` by a signup or a login that
ran on store `s` in environment `env`: a signup answered 201 with `tok` and
created the account `id`, or a login answered 200 with `tok` for the account
`id` found under the given email. -/
def Issued (C : Codec) (L : Jwt) (env : Env) (s : Store) (tok : Str) (id : AccountId) : Prop :=
  (∃ body : SignupBody, (signup C L env body s).outcome = .response 201 (.token tok) ∧
      id = s.nextId) ∨
  (∃ (body : LoginBody) (a : Account), (login C L env body s).outcome = .response 200 (.token tok) ∧
      findByEmail s (body.email.getD []) = some a ∧ id = a.id)

/-- The header value `Bearer <token>`. -/
def bearer (tok : Str) : Option Str :=
  some ("Bearer ".toList ++ tok)

/-! ## Lemmas on strings -/

theorem jsSplit_ne_nil (sep : Char) (s : Str) : jsSplit sep s ≠ [] := by
  induction s with
  | nil => simp [jsSplit]
  | cons c cs ih =>
    unfold jsSplit
    split
    · simp
    · split
      · simp
      · simp

theorem jsSplit_of_not_mem (sep : Char) (s : Str) (h : sep ∉ s) : jsSplit sep s = [s] := by
  induction s with
  | nil => simp [jsSplit]
  | cons c cs ih =>
    have hc : c ≠ sep := fun e => h (by simp [e])
    have hcs : sep ∉ cs := fun e => h (by simp [e])
    simp [jsSplit, hc, ih hcs]

theorem jsSplit_append_sep (sep : Char) (a b : Str) (h : sep ∉ a) :
    jsSplit sep (a ++ sep :: b) = a :: jsSplit sep b := by
  induction a with
  | nil => simp [jsSplit]
  | cons c cs ih =>
    have hc : c ≠ sep := fun e => h (by simp [e])
    have hcs : sep ∉ cs := fun e => h (by simp [e])
    simp [jsSplit, hc, ih hcs]

/-- The second blank-separated word of `<word> <token>` is the token, when
neither contains a blank. -/
theorem second_word (w tok : Str) (hw : ' ' ∉ w) (ht : ' ' ∉ tok) :
    (jsSplit ' ' (w ++ ' ' :: tok)).get? 1 = some tok := by
  rw [jsSplit_append_sep _ _ _ hw, jsSplit_of_not_mem _ _ ht]
  rfl

/-! ## Lemmas on tokens and middleware -/

theorem jwtVerify_issueToken (L : Jwt) (id t clock : Nat) :
    jwtVerify L (some (issueToken L id t)) clock =
      if t + 3600 ≤ clock then none else some ⟨id, t, t + 3600⟩ := by
  unfold issueToken jwtVerify
  have hne := L.sign_ne_nil id 3600 t
  cases hs : L.sign id 3600 t with
  | nil => exact absurd hs hne
  | cons c cs =>
    simp only
    rw [← hs, L.decode_sign]

theorem issueToken_no_blank (L : Jwt) (id t : Nat) : ' ' ∉ issueToken L id t :=
  L.sign_no_blank id 3600 t

theorem truthy_issueToken (L : Jwt) (id t : Nat) : truthy (some (issueToken L id t)) = true := by
  unfold issueToken
  have hne := L.sign_ne_nil id 3600 t
  cases hs : L.sign id 3600 t with
  | nil => exact absurd hs hne
  | cons c cs => rfl

/-- `authMiddleware` looks only at the second word of the header: any scheme
word in front of a token gives the verdict of `jwt.verify` on that token. -/
theorem authMiddleware_scheme (L : Jwt) (w : Str) (hw : ' ' ∉ w) (id t clock : Nat) :
    authMiddleware L clock (some (w ++ ' ' :: issueToken L id t)) =
      if t + 3600 ≤ clock then .reject 403 "Invalid token".toList else .next id := by
  unfold authMiddleware
  simp only [Option.bind]
  rw [second_word w _ hw (issueToken_no_blank L id t), truthy_issueToken, jwtVerify_issueToken]
  by_cases h : t + 3600 ≤ clock <;> simp [h]

theorem authMiddleware_bearer (L : Jwt) (id t clock : Nat) :
    authMiddleware L clock (bearer (issueToken L id t)) =
      if t + 3600 ≤ clock then .reject 403 "Invalid token".toList else .next id := by
  have h := authMiddleware_scheme L "Bearer".toList (by decide) id t clock
  simpa [bearer] using h

theorem authenticateToken_bearer (L : Jwt) (id t clock : Nat) :
    authenticateToken L clock (bearer (issueToken L id t)) =
      if t + 3600 ≤ clock then .reject 403 "Forbidden: Invalid token".toList else .next id := by
  have hsplit : (jsSplit ' ' ("Bearer ".toList ++ issueToken L id t)).get? 1 =
      some (issueToken L id t) :=
    second_word "Bearer".toList _ (by decide) (issueToken_no_blank L id t)
  have hpre : jsStartsWith "Bearer ".toList ("Bearer ".toList ++ issueToken L id t) = true := by
    simp [jsStartsWith]
  have htr : truthy (some ("Bearer ".toList ++ issueToken L id t)) = true := rfl
  unfold authenticateToken bearer
  simp only [Option.getD_some, htr, hpre, hsplit, jwtVerify_issueToken]
  by_cases h : t + 3600 ≤ clock <;> simp [h]

/-! ## Lemmas on the address handler -/

theorem truthy_some (x : Str) : truthy (some x) = true ↔ x ≠ [] := by
  cases x <;> simp [truthy]

theorem jsTrim_nil : jsTrim [] = [] := rfl

theorem getD_map_jsTrim (segs : List Str) (i : Nat) :
    (segs.map jsTrim).getD i [] = jsTrim (segs.getD i []) := by
  induction segs generalizing i with
  | nil => simp [jsTrim_nil]
  | cons a rest ih =>
    cases i with
    | zero => simp
    | succ i => simpa using ih i

/-- The guard of the add handler fires exactly when fewer than five parts exist
or one of the first five is empty. -/
theorem guard_iff (parts : List Str) :
    (!truthy (parts.get? 0) || !truthy (parts.get? 1) || !truthy (parts.get? 2) ||
        !truthy (parts.get? 3) || !truthy (parts.get? 4)) = true ↔
      (parts.length < 5 ∨ ∃ i, i < 5 ∧ parts.getD i [] = []) := by
  rcases parts with _ | ⟨a, _ | ⟨b, _ | ⟨c, _ | ⟨d, _ | ⟨e, rest⟩⟩⟩⟩⟩
  · simp [truthy]
  · simp [truthy]
  · simp [truthy]
  · simp [truthy]
  · simp [truthy]
  · have h5 : ¬ (a :: b :: c :: d :: e :: rest).length < 5 := by simp
    constructor
    · intro h
      right
      simp only [List.get?, Bool.or_eq_true, Bool.not_eq_true', ← Bool.not_eq_true,
        truthy_some, not_not] at h
      rcases h with (((h | h) | h) | h) | h
      · exact ⟨0, by decide, by simpa using h⟩
      · exact ⟨1, by decide, by simpa using h⟩
      · exact ⟨2, by decide, by simpa using h⟩
      · exact ⟨3, by decide, by simpa using h⟩
      · exact ⟨4, by decide, by simpa using h⟩
    · rintro (h | ⟨i, hi, h⟩)
      · exact absurd h h5
      · simp only [List.get?, Bool.or_eq_true, Bool.not_eq_true', ← Bool.not_eq_true,
          truthy_some, not_not]
        interval_cases i
        · left; left; left; left; simpa using h
        · left; left; left; right; simpa using h
        · left; left; right; simpa using h
        · left; right; simpa using h
        · right; simpa using h


theorem guard_false_of_complete (text : Str) (hlen : 5 ≤ (jsSplit ',' text).length)
    (hne : ∀ i, i < 5 → jsTrim ((jsSplit ',' text).getD i []) ≠ []) :
    ¬ (((jsSplit ',' text).map jsTrim).length < 5 ∨
        ∃ i, i < 5 ∧ ((jsSplit ',' text).map jsTrim).getD i [] = []) := by
  rintro (h | ⟨i, hi, h⟩)
  · simp at h; omega
  · rw [getD_map_jsTrim] at h
    exact hne i hi h

theorem get?_getD_of_lt (parts : List Str) (i : Nat) (_h : i < parts.length) :
    (parts.get? i).getD [] = parts.getD i [] := by
  simp [List.getD]

/-- With five non-empty leading parts the add handler reaches `save`, and its
answer is decided by the outcome of the write. -/
theorem addAddress_complete (user : AccountId) (text : Str) (env : Env) (s : Store)
    (hlen : 5 ≤ (jsSplit ',' text).length)
    (hne : ∀ i, i < 5 → jsTrim ((jsSplit ',' text).getD i []) ≠ []) :
    addAddress user (some (.str text)) env s =
      match env.writeFault with
      | some _ => ⟨.response 500 (.error "Server error".toList), s, [.addressSave]⟩
      | none =>
        ⟨.response 201 (.addressAdded "Address added successfully".toList
            { id := s.nextId,
              street := jsTrim ((jsSplit ',' text).getD 0 []),
              city := jsTrim ((jsSplit ',' text).getD 1 []),
              state := jsTrim ((jsSplit ',' text).getD 2 []),
              country := jsTrim ((jsSplit ',' text).getD 3 []),
              postalCode := jsTrim ((jsSplit ',' text).getD 4 []),
              user := user }),
          { s with
            addresses := s.addresses ++
              [{ id := s.nextId,
                 street := jsTrim ((jsSplit ',' text).getD 0 []),
                 city := jsTrim ((jsSplit ',' text).getD 1 []),
                 state := jsTrim ((jsSplit ',' text).getD 2 []),
                 country := jsTrim ((jsSplit ',' text).getD 3 []),
                 postalCode := jsTrim ((jsSplit ',' text).getD 4 []),
                 user := user }],
            nextId := s.nextId + 1 },
          [.addressSave]⟩ := by
  unfold addAddress
  simp only []
  have hg := guard_false_of_complete text hlen hne
  rw [← guard_iff] at hg
  have e0 := hne 0 (by decide)
  have e1 := hne 1 (by decide)
  have e2 := hne 2 (by decide)
  have e3 := hne 3 (by decide)
  have e4 := hne 4 (by decide)
  simp only [← getD_map_jsTrim] at e0 e1 e2 e3 e4 ⊢
  have hl : 5 ≤ ((jsSplit ',' text).map jsTrim).length := by simpa using hlen
  generalize (jsSplit ',' text).map jsTrim = parts at *
  simp only [hg, if_false]
  rw [get?_getD_of_lt parts 0 (by omega), get?_getD_of_lt parts 1 (by omega),
    get?_getD_of_lt parts 2 (by omega), get?_getD_of_lt parts 3 (by omega),
    get?_getD_of_lt parts 4 (by omega)]
  simp only [List.getD_eq_getElem?_getD] at e0 e1 e2 e3 e4
  cases hw : env.writeFault <;>
    simp [saveAddress, validAddress, e0, e1, e2, e3, e4, hw]

theorem addAddress_incomplete (user : AccountId) (text : Str) (env : Env) (s : Store)
    (h : (jsSplit ',' text).length < 5 ∨
      ∃ i, i < 5 ∧ jsTrim ((jsSplit ',' text).getD i []) = []) :
    addAddress user (some (.str text)) env s =
      ⟨.response 400 (.error "Incomplete address".toList), s, []⟩ := by
  have hg : ((jsSplit ',' text).map jsTrim).length < 5 ∨
      ∃ i, i < 5 ∧ ((jsSplit ',' text).map jsTrim).getD i [] = [] := by
    rcases h with h | ⟨i, hi, h⟩
    · left; simpa using h
    · right; exact ⟨i, hi, by rw [getD_map_jsTrim]; exact h⟩
  rw [← guard_iff] at hg
  unfold addAddress
  simp only [hg, if_true]

theorem behind_next (user : AccountId) (s : Store) (handler : AccountId → Result) :
    behind (.next user) s handler = handler user := rfl

theorem behind_reject (status : Nat) (msg : Str) (s : Store) (handler : AccountId → Result) :
    behind (.reject status msg) s handler = ⟨.response status (.error msg), s, []⟩ := rfl

/-! ## Address routes: the stated properties -/

/-- C1: an authenticated add-address request whose text has at least five
comma-separated segments, the first five non-empty after trimming, is answered
201 when the write succeeds; exactly one address is appended to the collection,
its street, city, state, country and postal code are the trimmed first five
segments in that order, and its owner is the account id the middleware
attached. -/
theorem add_address_created (C : Codec) (L : Jwt) (env : Env) (authorization : Option Str)
    (user : AccountId) (text : Str) (s : Store)
    (hauth : authenticateToken L env.clock authorization = .next user)
    (hlen : 5 ≤ (jsSplit ',' text).length)
    (hne : ∀ i, i < 5 → jsTrim ((jsSplit ',' text).getD i []) ≠ [])
    (hsave : env.writeFault = none) :
    serve C L env authorization (.addressesAdd (some (.str text))) s =
      ⟨.response 201 (.addressAdded "Address added successfully".toList
          { id := s.nextId,
            street := jsTrim ((jsSplit ',' text).getD 0 []),
            city := jsTrim ((jsSplit ',' text).getD 1 []),
            state := jsTrim ((jsSplit ',' text).getD 2 []),
            country := jsTrim ((jsSplit ',' text).getD 3 []),
            postalCode := jsTrim ((jsSplit ',' text).getD 4 []),
            user := user }),
        { s with
          addresses := s.addresses ++
            [{ id := s.nextId,
               street := jsTrim ((jsSplit ',' text).getD 0 []),
               city := jsTrim ((jsSplit ',' text).getD 1 []),
               state := jsTrim ((jsSplit ',' text).getD 2 []),
               country := jsTrim ((jsSplit ',' text).getD 3 []),
               postalCode := jsTrim ((jsSplit ',' text).getD 4 []),
               user := user }],
          nextId := s.nextId + 1 },
        [.addressSave]⟩ := by
  unfold serve
  simp only [hauth, behind_next]
  rw [addAddress_complete user text env s hlen hne, hsave]

/-- The request of the specification's example, sent with a token issued to
account 7: the stored address has the five trimmed fields and owner 7. -/
theorem add_address_created_witness :
    serve plainCodec plainJwt ⟨100, none, none, false⟩ (bearer (issueToken plainJwt 7 100))
        (.addressesAdd (some (.str "1 Main St, Springfield, IL, USA, 62704".toList)))
        ⟨[], [], 0⟩ =
      ⟨.response 201 (.addressAdded "Address added successfully".toList
          ⟨0, "1 Main St".toList, "Springfield".toList, "IL".toList, "USA".toList,
            "62704".toList, 7⟩),
        ⟨[], [⟨0, "1 Main St".toList, "Springfield".toList, "IL".toList, "USA".toList,
            "62704".toList, 7⟩], 1⟩,
        [.addressSave]⟩ :=
  add_address_created plainCodec plainJwt ⟨100, none, none, false⟩
    (bearer (issueToken plainJwt 7 100)) 7 "1 Main St, Springfield, IL, USA, 62704".toList
    ⟨[], [], 0⟩
    (by rw [authenticateToken_bearer]; simp)
    (by decide) (by decide) rfl

/-- C2: an authenticated add-address request with a string text is answered
400 "Incomplete address" with the store unchanged exactly when the text has
fewer than five comma-separated segments or one of its first five segments is
empty after trimming. -/
theorem add_address_incomplete_iff (C : Codec) (L : Jwt) (env : Env)
    (authorization : Option Str) (user : AccountId) (text : Str) (s : Store)
    (hauth : authenticateToken L env.clock authorization = .next user) :
    ((serve C L env authorization (.addressesAdd (some (.str text))) s).outcome =
          .response 400 (.error "Incomplete address".toList) ∧
        (serve C L env authorization (.addressesAdd (some (.str text))) s).store = s) ↔
      ((jsSplit ',' text).length < 5 ∨
        ∃ i seg, i < 5 ∧ (jsSplit ',' text).get? i = some seg ∧ jsTrim seg = []) := by
  have hserve : serve C L env authorization (.addressesAdd (some (.str text))) s =
      addAddress user (some (.str text)) env s := by
    unfold serve
    simp only [hauth, behind_next]
  rw [hserve]
  constructor
  · intro h
    by_contra hcon
    have hlen : 5 ≤ (jsSplit ',' text).length := by
      by_contra hl
      exact hcon (Or.inl (by omega))
    have hne : ∀ i, i < 5 → jsTrim ((jsSplit ',' text).getD i []) ≠ [] := by
      intro i hi he
      refine hcon (Or.inr ⟨i, (jsSplit ',' text).getD i [], hi, ?_, he⟩)
      rw [List.getD_eq_getElem?_getD, List.get?_eq_getElem?,
        List.getElem?_eq_getElem (by omega)]
      simp
    have hc := addAddress_complete user text env s hlen hne
    rw [hc] at h
    cases hw : env.writeFault <;> simp [hw] at h
  · intro h
    have h' : (jsSplit ',' text).length < 5 ∨
        ∃ i, i < 5 ∧ jsTrim ((jsSplit ',' text).getD i []) = [] := by
      rcases h with h | ⟨i, seg, hi, hseg, he⟩
      · exact Or.inl h
      · refine Or.inr ⟨i, hi, ?_⟩
        rw [List.getD_eq_getElem?_getD, ← List.get?_eq_getElem?, hseg]
        simpa using he
    rw [addAddress_incomplete user text env s h']
    exact ⟨rfl, rfl⟩

/-- The two-segment request of the specification's example is answered 400 and
leaves the store as it was. -/
theorem add_address_incomplete_iff_witness :
    (serve plainCodec plainJwt ⟨100, none, none, false⟩ (bearer (issueToken plainJwt 7 100))
          (.addressesAdd (some (.str "1 Main St, Springfield".toList))) ⟨[], [], 0⟩).outcome =
        .response 400 (.error "Incomplete address".toList) ∧
      (serve plainCodec plainJwt ⟨100, none, none, false⟩ (bearer (issueToken plainJwt 7 100))
          (.addressesAdd (some (.str "1 Main St, Springfield".toList))) ⟨[], [], 0⟩).store =
        ⟨[], [], 0⟩ :=
  (add_address_incomplete_iff plainCodec plainJwt ⟨100, none, none, false⟩
    (bearer (issueToken plainJwt 7 100)) 7 "1 Main St, Springfield".toList ⟨[], [], 0⟩
    (by rw [authenticateToken_bearer]; simp)).mpr (Or.inl (by decide))

/-- C9: an authenticated list request with account id `user` is answered 200
when the read succeeds; the list returned is the stored addresses owned by
`user`, in store order, so it holds exactly the stored addresses with that
owner and none owned by another account, and the store is unchanged. -/
theorem list_addresses_own (C : Codec) (L : Jwt) (env : Env) (authorization : Option Str)
    (user : AccountId) (s : Store)
    (hauth : authenticateToken L env.clock authorization = .next user)
    (hread : env.readFault = none) :
    ∃ docs,
      (serve C L env authorization .addressesList s).outcome = .response 200 (.addresses docs) ∧
      docs = s.addresses.filter (fun a => a.user = user) ∧
      (∀ a, a ∈ docs ↔ a ∈ s.addresses ∧ a.user = user) ∧
      (∀ a other, a ∈ docs → other ≠ user → a.user ≠ other) ∧
      (serve C L env authorization .addressesList s).store = s := by
  refine ⟨s.addresses.filter (fun a => a.user = user), ?_, rfl, ?_, ?_, ?_⟩
  · unfold serve
    simp only [hauth, behind_next, listAddresses, hread]
  · intro a
    simp [List.mem_filter]
  · intro a other ha hne
    have : a.user = user := by simpa using (List.mem_filter.mp ha).2
    rw [this]
    exact fun e => hne e.symm
  · unfold serve
    simp only [hauth, behind_next, listAddresses, hread]

/-- A store with addresses of accounts 7 and 8: the list for account 7 holds
only the address of account 7. -/
theorem list_addresses_own_witness :
    ∃ docs,
      (serve plainCodec plainJwt ⟨100, none, none, false⟩ (bearer (issueToken plainJwt 7 100))
        .addressesList
        ⟨[], [⟨0, ['a'], ['b'], ['c'], ['d'], ['e'], 7⟩, ⟨1, ['f'], ['g'], ['h'], ['i'], ['j'], 8⟩],
          2⟩).outcome = .response 200 (.addresses docs) ∧
      docs = [⟨0, ['a'], ['b'], ['c'], ['d'], ['e'], 7⟩] := by
  obtain ⟨docs, h1, h2, -⟩ := list_addresses_own plainCodec plainJwt ⟨100, none, none, false⟩
    (bearer (issueToken plainJwt 7 100)) 7
    ⟨[], [⟨0, ['a'], ['b'], ['c'], ['d'], ['e'], 7⟩, ⟨1, ['f'], ['g'], ['h'], ['i'], ['j'], 8⟩], 2⟩
    (by rw [authenticateToken_bearer]; simp) rfl
  exact ⟨docs, h1, by rw [h2]; decide⟩

/-! ## Account routes: the stated properties -/

theorem findByUsernameOrEmail_isSome (s : Store) (u e : Str)
    (h : ∃ a, a ∈ s.accounts ∧ (a.username = u ∨ a.email = some e)) :
    ∃ a, findByUsernameOrEmail s u e = some a := by
  obtain ⟨a, ha, hm⟩ := h
  cases hf : findByUsernameOrEmail s u e with
  | some b => exact ⟨b, rfl⟩
  | none =>
    unfold findByUsernameOrEmail at hf
    rw [List.find?_eq_none] at hf
    have := hf a ha
    rcases hm with hm | hm <;> simp [hm] at this

/-- C5: a signup whose username or email belongs to an existing account is
answered 400, leaves the store unchanged and returns no token, whatever the
outcome of the store calls. -/
theorem signup_duplicate_rejected (C : Codec) (L : Jwt) (env : Env) (body : SignupBody)
    (s : Store) (u e : Str) (hu : body.username = some u) (he : body.email = some e)
    (hdup : ∃ a, a ∈ s.accounts ∧ (a.username = u ∨ a.email = some e)) :
    (signup C L env body s).status = some 400 ∧
      (signup C L env body s).store = s ∧
      ∀ st tok, (signup C L env body s).outcome ≠ .response st (.token tok) := by
  obtain ⟨a, hfind⟩ := findByUsernameOrEmail_isSome s u e hdup
  unfold signup
  by_cases hg : (!truthy body.username || !truthy body.email || !truthy body.password) = true
  · simp [hg, Result.status]
  · simp only [hg, if_false]
    cases hr : env.readFault with
    | some m => simp [Result.status]
    | none =>
      simp only [hu, he, Option.getD_some, hfind]
      simp [Result.status]

/-- A second signup under the username of the stored account is refused and
the account list keeps its single entry. -/
theorem signup_duplicate_rejected_witness :
    (signup plainCodec plainJwt ⟨100, none, none, false⟩
        ⟨some "ann".toList, some "other@example.com".toList, some "pw".toList⟩
        ⟨[⟨0, "ann".toList, some "ann@example.com".toList, "h".toList, none, none, none⟩], [],
          1⟩).status = some 400 ∧
      (signup plainCodec plainJwt ⟨100, none, none, false⟩
        ⟨some "ann".toList, some "other@example.com".toList, some "pw".toList⟩
        ⟨[⟨0, "ann".toList, some "ann@example.com".toList, "h".toList, none, none, none⟩], [],
          1⟩).store =
        ⟨[⟨0, "ann".toList, some "ann@example.com".toList, "h".toList, none, none, none⟩], [],
          1⟩ :=
  have h := signup_duplicate_rejected plainCodec plainJwt ⟨100, none, none, false⟩
    ⟨some "ann".toList, some "other@example.com".toList, some "pw".toList⟩
    ⟨[⟨0, "ann".toList, some "ann@example.com".toList, "h".toList, none, none, none⟩], [], 1⟩
    "ann".toList "other@example.com".toList rfl rfl
    ⟨⟨0, "ann".toList, some "ann@example.com".toList, "h".toList, none, none, none⟩,
      by simp, Or.inl rfl⟩
  ⟨h.1, h.2.1⟩

/-- C8 at its failing input: all three fields are present, no account exists
and the save throws; signup answers 400, not 500, and the error text of the
body is the message of the thrown store error. -/
theorem signup_save_failure_not_500 :
    truthy (some "ann".toList) = true ∧ truthy (some "ann@example.com".toList) = true ∧
      truthy (some "pw".toList) = true ∧
      findByUsernameOrEmail ⟨[], [], 0⟩ "ann".toList "ann@example.com".toList = none ∧
      (signup plainCodec plainJwt
          ⟨100, none, some "Operation users.insertOne() buffering timed out".toList, false⟩
          ⟨some "ann".toList, some "ann@example.com".toList, some "pw".toList⟩
          ⟨[], [], 0⟩).status ≠ some 500 ∧
      (signup plainCodec plainJwt
          ⟨100, none, some "Operation users.insertOne() buffering timed out".toList, false⟩
          ⟨some "ann".toList, some "ann@example.com".toList, some "pw".toList⟩
          ⟨[], [], 0⟩).outcome =
        .response 400 (.error "Operation users.insertOne() buffering timed out".toList) := by
  decide

/-- C10: when the lookup by email returns an account and the password does not
verify against its stored hash, login answers 400 with an error body, so no
token; and whenever login returns a token the status is 200, both fields are
present, an account with that email was found and the password verified. -/
theorem login_wrong_password (C : Codec) (L : Jwt) (env : Env) (body : LoginBody) (s : Store) :
    (∀ email a, body.email = some email → env.readFault = none →
        findByEmail s email = some a → C.compare body.password a.password = false →
        (login C L env body s).status = some 400 ∧
          ∃ msg, (login C L env body s).outcome = .response 400 (.error msg)) ∧
    (∀ st tok, (login C L env body s).outcome = .response st (.token tok) →
        st = 200 ∧ truthy body.email = true ∧ truthy body.password = true ∧
          ∃ a, findByEmail s (body.email.getD []) = some a ∧
            C.compare body.password a.password = true) := by
  constructor
  · intro email a hemail hread hfind hcmp
    unfold login
    by_cases hg : (!truthy body.email || !truthy body.password) = true
    · rw [if_pos hg]
      exact ⟨rfl, _, rfl⟩
    · rw [if_neg hg]
      simp only [hread, hemail, Option.getD_some, hfind, hcmp]
      exact ⟨rfl, _, rfl⟩
  · intro st tok h
    unfold login at h
    by_cases hg : (!truthy body.email || !truthy body.password) = true
    · simp [hg] at h
    · simp only [hg, if_false] at h
      have hg' : truthy body.email = true ∧ truthy body.password = true := by
        simpa using hg
      cases hr : env.readFault with
      | some m => simp [hr] at h
      | none =>
        simp only [hr] at h
        cases hf : findByEmail s (body.email.getD []) with
        | none => simp [hf] at h
        | some a =>
          simp only [hf] at h
          cases hc : C.compare body.password a.password with
          | false => simp [hc] at h
          | true =>
            simp only [hc, Bool.not_true, Bool.false_eq_true, if_false] at h
            simp only [Result.outcome, Outcome.response.injEq] at h
            exact ⟨h.1.symm, hg'.1, hg'.2, a, rfl, hc⟩

/-- A login with the right email and a wrong password against a one-account
store. -/
theorem login_wrong_password_witness :
    (login plainCodec plainJwt ⟨100, none, none, false⟩
        ⟨some "ann@example.com".toList, some "wrong".toList⟩
        ⟨[⟨0, "ann".toList, some "ann@example.com".toList, "right".toList, none, none, none⟩],
          [], 1⟩).status = some 400 :=
  ((login_wrong_password plainCodec plainJwt ⟨100, none, none, false⟩
      ⟨some "ann@example.com".toList, some "wrong".toList⟩
      ⟨[⟨0, "ann".toList, some "ann@example.com".toList, "right".toList, none, none, none⟩],
        [], 1⟩).1
    "ann@example.com".toList
    ⟨0, "ann".toList, some "ann@example.com".toList, "right".toList, none, none, none⟩
    rfl rfl (by decide) (by decide)).1

/-! ## Tokens and the protected routes -/

theorem signup_token (C : Codec) (L : Jwt) (env : Env) (body : SignupBody) (s : Store)
    (st : Nat) (tok : Str) (h : (signup C L env body s).outcome = .response st (.token tok)) :
    tok = issueToken L s.nextId env.clock := by
  unfold signup at h
  split at h
  · simp at h
  · split at h
    · simp at h
    · split at h
      · simp at h
      · split at h
        · simp at h
        · simp only [Outcome.response.injEq, Body.token.injEq] at h
          exact h.2.symm

theorem login_token (C : Codec) (L : Jwt) (env : Env) (body : LoginBody) (s : Store)
    (st : Nat) (tok : Str) (a : Account)
    (h : (login C L env body s).outcome = .response st (.token tok))
    (ha : findByEmail s (body.email.getD []) = some a) :
    tok = issueToken L a.id env.clock := by
  unfold login at h
  split at h
  · simp at h
  · split at h
    · simp at h
    · simp only [ha] at h
      split at h
      · simp at h
      · simp only [Outcome.response.injEq, Body.token.injEq] at h
        exact h.2.symm

theorem issued_eq (C : Codec) (L : Jwt) (env : Env) (s : Store) (tok : Str) (id : AccountId)
    (h : Issued C L env s tok id) : tok = issueToken L id env.clock := by
  rcases h with ⟨body, h, hid⟩ | ⟨body, a, h, ha, hid⟩
  · rw [hid]
    exact signup_token C L env body s 201 tok h
  · rw [hid]
    exact login_token C L env body s 200 tok a h ha

/-- C7: a token returned by a successful signup or login for account `id` at
clock `env.clock`, presented as `Bearer <token>` at clock `t'`, is accepted by
both middlewares with exactly `id` attached when
`env.clock <= t' < env.clock + 3600`, and is rejected with 403 by both when
`t'` is after `env.clock + 3600`. -/
theorem issued_token_lifetime (C : Codec) (L : Jwt) (env : Env) (s : Store) (tok : Str)
    (id : AccountId) (h : Issued C L env s tok id) (t' : Nat) :
    (env.clock ≤ t' → t' < env.clock + 3600 →
        authMiddleware L t' (bearer tok) = .next id ∧
          authenticateToken L t' (bearer tok) = .next id) ∧
    (env.clock + 3600 < t' →
        authMiddleware L t' (bearer tok) = .reject 403 "Invalid token".toList ∧
          authenticateToken L t' (bearer tok) = .reject 403 "Forbidden: Invalid token".toList) := by
  rw [issued_eq C L env s tok id h, authMiddleware_bearer, authenticateToken_bearer]
  constructor
  · intro _ hlt
    have : ¬ env.clock + 3600 ≤ t' := by omega
    simp [this]
  · intro hgt
    have : env.clock + 3600 ≤ t' := by omega
    simp [this]

/-- The token of a signup at clock 100 on the empty store, for the new account
0: accepted at clock 200 with account 0 attached, rejected at clock 3701. -/
theorem issued_token_lifetime_witness :
    (authMiddleware plainJwt 200 (bearer (issueToken plainJwt 0 100)) = .next 0 ∧
        authenticateToken plainJwt 200 (bearer (issueToken plainJwt 0 100)) = .next 0) ∧
      (authMiddleware plainJwt 3701 (bearer (issueToken plainJwt 0 100)) =
          .reject 403 "Invalid token".toList ∧
        authenticateToken plainJwt 3701 (bearer (issueToken plainJwt 0 100)) =
          .reject 403 "Forbidden: Invalid token".toList) :=
  have hissued : Issued plainCodec plainJwt ⟨100, none, none, false⟩ ⟨[], [], 0⟩
      (issueToken plainJwt 0 100) 0 :=
    Or.inl ⟨⟨some "ann".toList, some "ann@example.com".toList, some "pw".toList⟩, rfl, rfl⟩
  ⟨(issued_token_lifetime plainCodec plainJwt ⟨100, none, none, false⟩ ⟨[], [], 0⟩
      (issueToken plainJwt 0 100) 0 hissued 200).1 (by decide) (by decide),
    (issued_token_lifetime plainCodec plainJwt ⟨100, none, none, false⟩ ⟨[], [], 0⟩
      (issueToken plainJwt 0 100) 0 hissued 3701).2 (by decide)⟩

/-- C3 at its failing input: `GET /api/users/me` with the header
`Token <token>`, which does not start with `Bearer `, is not answered 403; the
handler runs and reads the account collection. -/
theorem users_me_other_scheme (C : Codec) (L : Jwt) (env : Env) (id : AccountId) (s : Store) :
    jsStartsWith "Bearer ".toList ("Token ".toList ++ issueToken L id env.clock) = false ∧
      (serve C L env (some ("Token ".toList ++ issueToken L id env.clock)) .usersMe s).status ≠
        some 403 ∧
      (serve C L env (some ("Token ".toList ++ issueToken L id env.clock)) .usersMe s).log =
        [.userFindById] := by
  have hmw : authMiddleware L env.clock (some ("Token ".toList ++ issueToken L id env.clock)) =
      .next id := by
    have h := authMiddleware_scheme L "Token".toList (by decide) id env.clock env.clock
    have hlt : ¬ env.clock + 3600 ≤ env.clock := by omega
    simpa [hlt] using h
  refine ⟨by simp [jsStartsWith, List.isPrefixOf], ?_, ?_⟩
  · unfold serve
    simp only [hmw, behind_next, getSelf]
    cases env.readFault with
    | some m => simp [Result.status]
    | none => cases findById s id <;> simp [Result.status]
  · unfold serve
    simp only [hmw, behind_next, getSelf]
    cases env.readFault with
    | some m => rfl
    | none => cases findById s id <;> rfl

/-- C4 at its failing input: an authenticated add-address request whose body
has no `combinedAddress`, or a number in its place, ends with a `TypeError`
that leaves the handler; no response is sent. -/
theorem add_address_uncaught (C : Codec) (L : Jwt) (env : Env) (id : AccountId) (s : Store) :
    (serve C L env (bearer (issueToken L id env.clock)) (.addressesAdd none) s).outcome =
        .uncaught "TypeError".toList ∧
      (serve C L env (bearer (issueToken L id env.clock)) (.addressesAdd (some (.num 5)))
          s).outcome = .uncaught "TypeError".toList := by
  have hmw : authenticateToken L env.clock (bearer (issueToken L id env.clock)) = .next id := by
    rw [authenticateToken_bearer]
    have hlt : ¬ env.clock + 3600 ≤ env.clock := by omega
    simp [hlt]
  unfold serve
  simp only [hmw, behind_next]
  exact ⟨rfl, rfl⟩

/-! ## Uniqueness of username and email -/

theorem mem_updateById (skip : Bool) (id : AccountId) (body : UpdateBody) (l : List Account)
    (y : Account) (hy : y ∈ updateById skip id body l) :
    y ∈ l ∨ ∃ a, l.find? (fun a => a.id = id) = some a ∧ y = applyUpdate skip body a := by
  induction l with
  | nil => simp [updateById] at hy
  | cons x rest ih =>
    unfold updateById at hy
    by_cases hx : x.id = id
    · rw [if_pos hx] at hy
      rcases List.mem_cons.mp hy with h | h
      · exact Or.inr ⟨x, by simp [List.find?, hx], h⟩
      · exact Or.inl (List.mem_cons_of_mem _ h)
    · rw [if_neg hx] at hy
      rcases List.mem_cons.mp hy with h | h
      · exact Or.inl (by simp [h])
      · rcases ih h with h' | ⟨a, ha, hya⟩
        · exact Or.inl (List.mem_cons_of_mem _ h')
        · exact Or.inr ⟨a, by simpa [List.find?, hx] using ha, hya⟩

/-- Replacing the first account with a given id by its updated version keeps
usernames and emails pairwise distinct, when the update leaves the email as it
was or writes one that no listed account holds. -/
theorem updateById_pairwise (skip : Bool) (id : AccountId) (body : UpdateBody)
    (l : List Account)
    (hl : l.Pairwise fun a b => a.username ≠ b.username ∧ a.email ≠ b.email)
    (hchk : ∀ a, l.find? (fun a => a.id = id) = some a →
      (applyUpdate skip body a).email = a.email ∨
        ∀ b, b ∈ l → b.email ≠ (applyUpdate skip body a).email) :
    (updateById skip id body l).Pairwise
      fun a b => a.username ≠ b.username ∧ a.email ≠ b.email := by
  induction l with
  | nil => simp [updateById]
  | cons x rest ih =>
    obtain ⟨hx, hrest⟩ := List.pairwise_cons.mp hl
    unfold updateById
    by_cases hid : x.id = id
    · rw [if_pos hid]
      refine List.pairwise_cons.mpr ⟨?_, hrest⟩
      intro b hb
      refine ⟨(hx b hb).1, ?_⟩
      rcases hchk x (by simp [List.find?, hid]) with h | h
      · rw [h]
        exact (hx b hb).2
      · exact fun e => h b (List.mem_cons_of_mem _ hb) e.symm
    · rw [if_neg hid]
      have hchk' : ∀ a, rest.find? (fun a => a.id = id) = some a →
          (applyUpdate skip body a).email = a.email ∨
            ∀ b, b ∈ rest → b.email ≠ (applyUpdate skip body a).email := by
        intro a ha
        rcases hchk a (by simpa [List.find?, hid] using ha) with h | h
        · exact Or.inl h
        · exact Or.inr fun b hb => h b (List.mem_cons_of_mem _ hb)
      refine List.pairwise_cons.mpr ⟨?_, ih hrest hchk'⟩
      intro y hy
      rcases mem_updateById skip id body rest y hy with h | ⟨a, ha, hya⟩
      · exact hx y h
      · have hmem : a ∈ rest := List.mem_of_find?_eq_some ha
        subst hya
        refine ⟨(hx a hmem).1, ?_⟩
        rcases hchk a (by simpa [List.find?, hid] using ha) with h | h
        · rw [h]
          exact (hx a hmem).2
        · exact h x (by simp)

theorem mem_setPassword (id : AccountId) (digest : Str) (l : List Account) (y : Account)
    (hy : y ∈ setPassword id digest l) :
    ∃ b, b ∈ l ∧ y.username = b.username ∧ y.email = b.email := by
  induction l with
  | nil => simp [setPassword] at hy
  | cons x rest ih =>
    unfold setPassword at hy
    by_cases hx : x.id = id
    · rw [if_pos hx] at hy
      rcases List.mem_cons.mp hy with h | h
      · exact ⟨x, by simp, by rw [h], by rw [h]⟩
      · exact ⟨y, List.mem_cons_of_mem _ h, rfl, rfl⟩
    · rw [if_neg hx] at hy
      rcases List.mem_cons.mp hy with h | h
      · exact ⟨x, by simp, by rw [h], by rw [h]⟩
      · obtain ⟨b, hb, h1, h2⟩ := ih h
        exact ⟨b, List.mem_cons_of_mem _ hb, h1, h2⟩

theorem setPassword_pairwise (id : AccountId) (digest : Str) (l : List Account)
    (hl : l.Pairwise fun a b => a.username ≠ b.username ∧ a.email ≠ b.email) :
    (setPassword id digest l).Pairwise
      fun a b => a.username ≠ b.username ∧ a.email ≠ b.email := by
  induction l with
  | nil => simp [setPassword]
  | cons x rest ih =>
    obtain ⟨hx, hrest⟩ := List.pairwise_cons.mp hl
    unfold setPassword
    by_cases hid : x.id = id
    · rw [if_pos hid]
      exact List.pairwise_cons.mpr ⟨fun b hb => hx b hb, hrest⟩
    · rw [if_neg hid]
      refine List.pairwise_cons.mpr ⟨?_, ih hrest⟩
      intro y hy
      obtain ⟨b, hb, h1, h2⟩ := mem_setPassword id digest rest y hy
      rw [h1, h2]
      exact hx b hb

theorem signup_unique (C : Codec) (L : Jwt) (env : Env) (body : SignupBody) (s : Store)
    (h : UniqueAccounts s) : UniqueAccounts (signup C L env body s).store := by
  unfold signup
  split
  · exact h
  · rename_i hg
    split
    · exact h
    · split
      · exact h
      · rename_i hnone
        split
        · exact h
        · have hemail : body.email = some (body.email.getD []) := by
            cases he : body.email with
            | none => simp [he, truthy] at hg
            | some e => rfl
          unfold findByUsernameOrEmail at hnone
          rw [List.find?_eq_none] at hnone
          unfold UniqueAccounts at h ⊢
          refine List.pairwise_append.mpr ⟨h, List.pairwise_singleton _ _, ?_⟩
          intro a ha b hb
          rw [List.mem_singleton] at hb
          have hna := hnone a ha
          subst hb
          simp only [Bool.or_eq_true, decide_eq_true_eq, not_or] at hna
          refine ⟨hna.1, ?_⟩
          rw [hemail]
          exact hna.2

theorem login_store (C : Codec) (L : Jwt) (env : Env) (body : LoginBody) (s : Store) :
    (login C L env body s).store = s := by
  unfold login
  split
  · rfl
  · split
    · rfl
    · split
      · rfl
      · split <;> rfl

theorem getSelf_store (user : AccountId) (env : Env) (s : Store) :
    (getSelf user env s).store = s := by
  unfold getSelf
  split
  · rfl
  · split <;> rfl

theorem updateSelf_unique (user : AccountId) (body : UpdateBody) (env : Env) (s : Store)
    (h : UniqueAccounts s) : UniqueAccounts (updateSelf user body env s).store := by
  unfold updateSelf
  simp only
  split
  · exact h
  · split
    · exact h
    · rename_i hrefused
      unfold UniqueAccounts at h ⊢
      refine updateById_pairwise _ _ _ _ h ?_
      intro a ha
      have hfind : findById s user = some a := ha
      simp only [hfind, duplicateEmail, Bool.and_eq_true, bne_iff_ne, ne_eq, List.any_eq_true,
        beq_iff_eq, not_and, not_exists] at hrefused
      by_cases he : (applyUpdate env.omitUndefined body a).email = a.email
      · exact Or.inl he
      · exact Or.inr fun b hb => hrefused he b hb

theorem changePassword_unique (C : Codec) (user : AccountId) (body : PasswordBody) (env : Env)
    (s : Store) (h : UniqueAccounts s) :
    UniqueAccounts (changePassword C user body env s).store := by
  unfold changePassword
  split
  · exact h
  · split
    · exact h
    · split
      · exact h
      · split
        · exact setPassword_pairwise _ _ _ h
        · exact h

theorem handle_unique (C : Codec) (L : Jwt) (env : Env) (r : AccountRequest) (s : Store)
    (h : UniqueAccounts s) : UniqueAccounts (handle C L env r s).store := by
  cases r with
  | signup body => exact signup_unique C L env body s h
  | login body =>
    show UniqueAccounts (login C L env body s).store
    rw [login_store]
    exact h
  | getSelf u =>
    show UniqueAccounts (getSelf u env s).store
    rw [getSelf_store]
    exact h
  | updateSelf u body => exact updateSelf_unique u body env s h
  | changePassword u body => exact changePassword_unique C u body env s h

/-- C6: from a store in which no two accounts share a username or an email,
the store reached after any sequence of signup, login, get-self, update-self
and change-password requests, each with its own clock and store outcomes,
still has no two accounts sharing a username or an email. -/
theorem unique_accounts_preserved (C : Codec) (L : Jwt) (reqs : List (Env × AccountRequest))
    (s : Store) (h : UniqueAccounts s) : UniqueAccounts (runAll C L reqs s) := by
  induction reqs generalizing s with
  | nil => exact h
  | cons r rs ih =>
    obtain ⟨env, req⟩ := r
    exact ih _ (handle_unique C L env req s h)

/-- Two signups on the empty store, an update by the second account with the
email of the first (refused by the store, answered 500) and an update of the
second account to a fresh email (accepted, answered 200): the accounts reached
are pairwise distinct in username and email. -/
theorem unique_accounts_preserved_witness :
    UniqueAccounts (runAll plainCodec plainJwt
        [(⟨100, none, none, false⟩,
            .signup ⟨some "ann".toList, some "ann@example.com".toList, some "pw".toList⟩),
          (⟨101, none, none, false⟩,
            .signup ⟨some "bob".toList, some "bob@example.com".toList, some "pw".toList⟩),
          (⟨102, none, none, false⟩,
            .updateSelf 1 ⟨none, none, some "ann@example.com".toList, none⟩),
          (⟨103, none, none, false⟩,
            .updateSelf 1 ⟨none, none, some "rob@example.com".toList, none⟩)]
        ⟨[], [], 0⟩) ∧
      (runAll plainCodec plainJwt
        [(⟨100, none, none, false⟩,
            .signup ⟨some "ann".toList, some "ann@example.com".toList, some "pw".toList⟩),
          (⟨101, none, none, false⟩,
            .signup ⟨some "bob".toList, some "bob@example.com".toList, some "pw".toList⟩),
          (⟨102, none, none, false⟩,
            .updateSelf 1 ⟨none, none, some "ann@example.com".toList, none⟩),
          (⟨103, none, none, false⟩,
            .updateSelf 1 ⟨none, none, some "rob@example.com".toList, none⟩)]
        ⟨[], [], 0⟩).accounts.map (fun a => a.email) =
        [some "ann@example.com".toList, some "rob@example.com".toList] :=
  ⟨unique_accounts_preserved plainCodec plainJwt _ ⟨[], [], 0⟩ (by decide), by decide⟩

end PlantIT
